import Mathlib

/-!
Verification of the `empfindung` color-difference library.

This file shallowly embeds the library's JavaScript sources
(`lib/trigDegreeLib.js`, `lib/ColorError.js`, `lib/colorUtils.js`,
`lib/DeltaE.js`) into Lean: JavaScript numbers become real numbers,
thrown errors become `Except ColorError`, and the two hue-normalization
`while` loops become a well-founded recursive function.  Theorems below
settle the specification's claims against these definitions.
-/

noncomputable section

namespace Empfindung

/-! ## trigDegreeLib.js -/

/-- Source: `_radToDeg = (x) => x * 180 / Math.PI`. -/
def _radToDeg (x : ℝ) : ℝ := x * 180 / Real.pi

/-- Source: `_degToRad = (x) => x * Math.PI / 180`. -/
def _degToRad (x : ℝ) : ℝ := x * Real.pi / 180

/-- Source: `cosd = (x) => Math.cos(_degToRad(x))`. -/
def cosd (x : ℝ) : ℝ := Real.cos (_degToRad x)

/-- Source: `sind = (x) => Math.sin(_degToRad(x))`. -/
def sind (x : ℝ) : ℝ := Real.sin (_degToRad x)

/-- `Math.atan2(y, x)`: the angle of the point `(x, y)`, in `(-π, π]`,
with `atan2 0 0 = 0`.  `Complex.arg` has exactly this contract. -/
def atan2 (y x : ℝ) : ℝ := Complex.arg (x + y * Complex.I)

/-- Source: `atan2d = (x, y) => _radToDeg(Math.atan2(x, y))`; the first
parameter plays the `y` (numerator) role. -/
def atan2d (x y : ℝ) : ℝ := _radToDeg (atan2 x y)

/-- JavaScript truncation toward zero, used by the `%` operator. -/
def jsTrunc (t : ℝ) : ℝ := if 0 ≤ t then (⌊t⌋ : ℤ) else (⌈t⌉ : ℤ)

/-- JavaScript remainder `x % y`: `x - y * trunc(x / y)`, so the result
carries the sign of the dividend `x`. -/
def jsMod (x y : ℝ) : ℝ := x - y * jsTrunc (x / y)

/-! ## ColorError.js -/

/-- The error taxonomy of `ColorError.js`: `ChannelCountError` carries the
offending values and the expected channel count; `CoordinateRangeError`
carries the 3-channel color and the per-channel in-range flags used to
build its message. -/
inductive ColorError where
  | channelCount (values : List ℝ) (expected : ℕ)
  | coordinateRange (color : List ℝ) (flags : List Bool)

/-! ## colorUtils.js -/

/-- Source: `_isValidLabColor([l, a, b])` returns the three per-channel
range flags `l ∈ [0,100]`, `a ∈ [-128,127]`, `b ∈ [-128,127]`. -/
def _isValidLabColor (x : List ℝ) : List Bool :=
  let l := x.getD 0 0
  let a := x.getD 1 0
  let b := x.getD 2 0
  [decide (l ≥ 0 ∧ l ≤ 100), decide (a ≥ -128 ∧ a ≤ 127), decide (b ≥ -128 ∧ b ≤ 127)]

/-- Source: `_checkColor(x, discardExcessChannels)`.  The channel-count
check runs first (keeping the first 3 elements when discarding is allowed
and there are more than 3), then the range check on the resulting
3-channel color; on success the color is returned unchanged. -/
def _checkColor (x : List ℝ) (discardExcessChannels : Bool) : Except ColorError (List ℝ) :=
  let threeChannelColor : Option (List ℝ) :=
    if x.length ≠ 3 then
      if discardExcessChannels ∧ x.length > 3 then some (x.take 3) else none
    else some x
  match threeChannelColor with
  | none => .error (.channelCount x 3)
  | some c =>
      let colorCoordTest := _isValidLabColor c
      if colorCoordTest.all (fun e => e) then .ok c
      else .error (.coordinateRange c colorCoordTest)

/-- A 3-channel L*a*b* color, the destructured `[l, a, b]` of the source. -/
structure Lab where
  l : ℝ
  a : ℝ
  b : ℝ

/-- A 3-channel L*C*H* color as produced by `labToLch`. -/
structure Lch where
  l : ℝ
  c : ℝ
  h : ℝ

/-- Destructuring a validated 3-element array as `[l, a, b]`. -/
def toLab (x : List ℝ) : Lab := ⟨x.getD 0 0, x.getD 1 0, x.getD 2 0⟩

/-- The source's pair of normalization loops
`while (H >= 360) H -= 360; while (H < 0) H += 360;`
as a single recursive function on the loop variable. -/
def normHue (h : ℝ) : ℝ :=
  if 360 ≤ h then normHue (h - 360)
  else if h < 0 then normHue (h + 360)
  else h
termination_by (⌊h / 360⌋).natAbs
decreasing_by
  · have h1 : (1 : ℤ) ≤ ⌊h / 360⌋ := by
      rw [Int.le_floor]
      push_cast
      rw [le_div_iff (by norm_num : (0:ℝ) < 360)]
      linarith
    have h2 : ⌊(h - 360) / 360⌋ = ⌊h / 360⌋ - 1 := by
      have : (h - 360) / 360 = h / 360 + (-1 : ℤ) := by push_cast; ring
      rw [this, Int.floor_add_int]
      ring
    rw [h2]
    omega
  · have hd : h / 360 < 0 := div_neg_of_neg_of_pos (by linarith) (by norm_num)
    have h1 : ⌊h / 360⌋ ≤ (-1 : ℤ) := by
      by_contra hc
      push_neg at hc
      have : (0 : ℤ) ≤ ⌊h / 360⌋ := by omega
      rw [Int.floor_nonneg] at this
      linarith
    have h2 : ⌊(h + 360) / 360⌋ = ⌊h / 360⌋ + 1 := by
      have : (h + 360) / 360 = h / 360 + (1 : ℤ) := by push_cast; ring
      rw [this, Int.floor_add_int]
    rw [h2]
    omega

/-- Source: `labToLch([L, a, b])`: chroma `C = sqrt(a² + b²)`, hue `H = 0`
when `C ≤ 0` else `atan2d(b, a)`, then the normalization loops. -/
def labToLch (x : Lab) : Lch :=
  let C : ℝ := Real.sqrt (x.a * x.a + x.b * x.b)
  let H : ℝ := if C ≤ 0 then 0 else atan2d x.b x.a
  ⟨x.l, C, normHue H⟩

/-! ## DeltaE.js -/

/-- Source: `getklValueFromType`: `'textiles'` maps to 2; `'graphicArts'`
and every other value map to 1. -/
def getklValueFromType (applicationType : String) : ℝ :=
  if applicationType = "textiles" then 2 else 1

/-- The `k1`/`k2` pair chosen by `cie1994`'s `switch`: `'textiles'` gives
`(0.048, 0.014)`; `'graphicArts'` and the default give `(0.045, 0.015)`. -/
def cie1994K (applicationType : String) : ℝ × ℝ :=
  if applicationType = "textiles" then (0.048, 0.014) else (0.045, 0.015)

/-- Source: body of `DeltaE.cie1976` on destructured colors. -/
def cie1976Core (x y : Lab) : ℝ :=
  let lDiff := y.l - x.l
  let aDiff := y.a - x.a
  let bDiff := y.b - x.b
  Real.sqrt (lDiff * lDiff + aDiff * aDiff + bDiff * bDiff)

/-- Source: body of `DeltaE.cie1994` on destructured colors. -/
def cie1994Core (x y : Lab) (applicationType : String) : ℝ :=
  let kl := getklValueFromType applicationType
  let kc : ℝ := 1
  let kh : ℝ := 1
  let k1 := (cie1994K applicationType).1
  let k2 := (cie1994K applicationType).2
  let c1 := Real.sqrt (x.a * x.a + x.b * x.b)
  let c2 := Real.sqrt (y.a * y.a + y.b * y.b)
  let deltaA := x.a - y.a
  let deltaB := x.b - y.b
  let deltaC := c1 - c2
  let deltaH := Real.sqrt (deltaA * deltaA + deltaB * deltaB - deltaC * deltaC)
  let deltaL := x.l - y.l
  let sl : ℝ := 1
  let sc := 1 + k1 * c1
  let sh := 1 + k2 * c2
  let firstTerm := deltaL / (kl * sl)
  let secondTerm := deltaC / (kc * sc)
  let thirdTerm := deltaH / (kh * sh)
  Real.sqrt (firstTerm * firstTerm + secondTerm * secondTerm + thirdTerm * thirdTerm)

/-- `ciede2000` line `lBar = (l1 + l2) / 2`. -/
def lBarOf (x y : Lab) : ℝ := (x.l + y.l) / 2

/-- `ciede2000` line `cBar = (c1 + c2) / 2` where `c1`, `c2` are the
chromas extracted through `labToLch`. -/
def cBarOf (x y : Lab) : ℝ := ((labToLch x).c + (labToLch y).c) / 2

/-- `ciede2000`'s `cCoeff = sqrt(cBar⁷ / (cBar⁷ + 25⁷))`. -/
def cCoeffOf (x y : Lab) : ℝ :=
  Real.sqrt (cBarOf x y ^ 7 / (cBarOf x y ^ 7 + 25 ^ 7))

/-- `ciede2000`'s `a1Prime = a1 + (a1 / 2) * (1 - cCoeff)`. -/
def a1PrimeOf (x y : Lab) : ℝ := x.a + (x.a / 2) * (1 - cCoeffOf x y)

/-- `ciede2000`'s `a2Prime = a2 + (a2 / 2) * (1 - cCoeff)`. -/
def a2PrimeOf (x y : Lab) : ℝ := y.a + (y.a / 2) * (1 - cCoeffOf x y)

/-- `ciede2000`'s `c1Prime = sqrt(a1Prime² + b1²)`. -/
def c1PrimeOf (x y : Lab) : ℝ :=
  Real.sqrt (a1PrimeOf x y * a1PrimeOf x y + x.b * x.b)

/-- `ciede2000`'s `c2Prime = sqrt(a2Prime² + b2²)`. -/
def c2PrimeOf (x y : Lab) : ℝ :=
  Real.sqrt (a2PrimeOf x y * a2PrimeOf x y + y.b * y.b)

/-- `ciede2000`'s `cBarPrime = (c1Prime + c2Prime) / 2`. -/
def cBarPrimeOf (x y : Lab) : ℝ := (c1PrimeOf x y + c2PrimeOf x y) / 2

/-- `ciede2000`'s `deltaCPrime = c2Prime - c1Prime`. -/
def deltaCPrimeOf (x y : Lab) : ℝ := c2PrimeOf x y - c1PrimeOf x y

/-- `ciede2000`'s `deltaLPrime = l2 - l1`. -/
def deltaLPrimeOf (x y : Lab) : ℝ := y.l - x.l

/-- `ciede2000`'s `h1Prime`: 0 when `a1Prime` and `b1` are both 0, else
`atan2d(b1, a1Prime) % 360` with the JavaScript remainder. -/
def h1PrimeOf (x y : Lab) : ℝ :=
  if a1PrimeOf x y = 0 ∧ x.b = 0 then 0
  else jsMod (atan2d x.b (a1PrimeOf x y)) 360

/-- `ciede2000`'s `h2Prime`: 0 when `a2Prime` and `b2` are both 0, else
`atan2d(b2, a2Prime) % 360` with the JavaScript remainder. -/
def h2PrimeOf (x y : Lab) : ℝ :=
  if a2PrimeOf x y = 0 ∧ y.b = 0 then 0
  else jsMod (atan2d y.b (a2PrimeOf x y)) 360

/-- `ciede2000`'s `deltaSmallHPrime` assignment: 0 when either adjusted
chroma is 0; the plain difference within 180°; otherwise wrapped by
`±360` according to which hue is larger. -/
def deltaSmallHPrimeOf (x y : Lab) : ℝ :=
  if c1PrimeOf x y = 0 ∨ c2PrimeOf x y = 0 then 0
  else if |h1PrimeOf x y - h2PrimeOf x y| ≤ 180 then h2PrimeOf x y - h1PrimeOf x y
  else if h2PrimeOf x y ≤ h1PrimeOf x y then h2PrimeOf x y - h1PrimeOf x y + 360
  else h2PrimeOf x y - h1PrimeOf x y - 360

/-- `ciede2000`'s `deltaBigHPrime` assignment: 0 when either adjusted
chroma is 0, else `2·sqrt(c1Prime·c2Prime)·sind(deltaSmallHPrime / 2)`. -/
def deltaBigHPrimeOf (x y : Lab) : ℝ :=
  if c1PrimeOf x y = 0 ∨ c2PrimeOf x y = 0 then 0
  else 2 * Real.sqrt (c1PrimeOf x y * c2PrimeOf x y) * sind (deltaSmallHPrimeOf x y / 2)

/-- `ciede2000`'s `hBarPrime` assignment: the sum `h1Prime + h2Prime` when
either adjusted chroma is 0; the plain mean within 180°; otherwise the
mean after shifting the sum by `±360`. -/
def hBarPrimeOf (x y : Lab) : ℝ :=
  if c1PrimeOf x y = 0 ∨ c2PrimeOf x y = 0 then h1PrimeOf x y + h2PrimeOf x y
  else if |h1PrimeOf x y - h2PrimeOf x y| ≤ 180 then (h1PrimeOf x y + h2PrimeOf x y) / 2
  else if h1PrimeOf x y + h2PrimeOf x y < 360 then (h1PrimeOf x y + h2PrimeOf x y + 360) / 2
  else (h1PrimeOf x y + h2PrimeOf x y - 360) / 2

/-- `ciede2000`'s hue-rotation factor `T`. -/
def TOf (x y : Lab) : ℝ :=
  1 - 0.17 * cosd (hBarPrimeOf x y - 30)
    + 0.24 * cosd (2 * hBarPrimeOf x y)
    + 0.32 * cosd (3 * hBarPrimeOf x y + 6)
    - 0.2 * cosd (4 * hBarPrimeOf x y - 63)

/-- `ciede2000`'s `slCoeff = (lBar - 50)²`. -/
def slCoeffOf (x y : Lab) : ℝ := (lBarOf x y - 50) * (lBarOf x y - 50)

/-- `ciede2000`'s `sl = 1 + 0.015·slCoeff / sqrt(20 + slCoeff)`. -/
def slOf (x y : Lab) : ℝ :=
  1 + (0.015 * slCoeffOf x y) / Real.sqrt (20 + slCoeffOf x y)

/-- `ciede2000`'s `sc = 1 + 0.045·cBarPrime`. -/
def scOf (x y : Lab) : ℝ := 1 + 0.045 * cBarPrimeOf x y

/-- `ciede2000`'s `sh = 1 + 0.015·cBarPrime·T`. -/
def shOf (x y : Lab) : ℝ := 1 + 0.015 * cBarPrimeOf x y * TOf x y

/-- `ciede2000`'s `RtCoeff = 60·exp(-((hBarPrime - 275) / 25)²)`. -/
def RtCoeffOf (x y : Lab) : ℝ :=
  60 * Real.exp (-((hBarPrimeOf x y - 275) / 25) * ((hBarPrimeOf x y - 275) / 25))

/-- `ciede2000`'s `Rt = -2·cCoeff·sind(RtCoeff)`. -/
def RtOf (x y : Lab) : ℝ := -2 * cCoeffOf x y * sind (RtCoeffOf x y)

/-- Source: body of `DeltaE.ciede2000` on destructured colors, assembled
from the intermediate quantities above with `kl = kc = kh = 1`. -/
def ciede2000Core (x y : Lab) : ℝ :=
  let kl : ℝ := 1
  let kc : ℝ := 1
  let kh : ℝ := 1
  let firstTerm := deltaLPrimeOf x y / (kl * slOf x y)
  let secondTerm := deltaCPrimeOf x y / (kc * scOf x y)
  let thirdTerm := deltaBigHPrimeOf x y / (kh * shOf x y)
  let fourthTerm := RtOf x y * secondTerm * thirdTerm
  Real.sqrt (firstTerm * firstTerm + secondTerm * secondTerm + thirdTerm * thirdTerm + fourthTerm)

/-- The `l`/`c` pair chosen by `cmc1984`'s `switch`: `'acceptability'`
gives `(2, 1)`; `'imperceptibility'` and the default give `(1, 1)`. -/
def cmcLC (thresholdType : String) : ℝ × ℝ :=
  if thresholdType = "acceptability" then (2, 1) else (1, 1)

/-- `cmc1984`'s `F = sqrt(c1⁴ / (c1⁴ + 1900))`. -/
def cmcF (c1 : ℝ) : ℝ :=
  let c1Pow4 := c1 * c1 * c1 * c1
  Real.sqrt (c1Pow4 / (c1Pow4 + 1900))

/-- `cmc1984`'s `T`: `0.56 + |0.2·cosd(h1 + 168)|` when `h1 ∈ [164, 345]`,
else `0.36 + |0.4·cosd(h1 + 35)|`. -/
def cmcT (h1 : ℝ) : ℝ :=
  if h1 ≥ 164 ∧ h1 ≤ 345 then 0.56 + |0.2 * cosd (h1 + 168)|
  else 0.36 + |0.4 * cosd (h1 + 35)|

/-- `cmc1984`'s `sl`: `0.511` when `l1 < 16`, else
`0.040975·l1 / (1 + 0.01765·l1)`. -/
def cmcSl (l1 : ℝ) : ℝ :=
  if l1 < 16 then 0.511 else (0.040975 * l1) / (1 + 0.01765 * l1)

/-- `cmc1984`'s `sc = 0.0638·c1 / (1 + 0.0131·c1) + 0.638`. -/
def cmcSc (c1 : ℝ) : ℝ := ((0.0638 * c1) / (1 + 0.0131 * c1)) + 0.638

/-- `cmc1984`'s `sh = sc·(F·T + 1 - F)`. -/
def cmcSh (c1 h1 : ℝ) : ℝ := cmcSc c1 * (cmcF c1 * cmcT h1 + 1 - cmcF c1)

/-- Source: body of `DeltaE.cmc1984` on destructured colors. -/
def cmc1984Core (x y : Lab) (thresholdType : String) : ℝ :=
  let l := (cmcLC thresholdType).1
  let c := (cmcLC thresholdType).2
  let c1 := (labToLch x).c
  let h1 := (labToLch x).h
  let c2 := (labToLch y).c
  let deltaA := x.a - y.a
  let deltaB := x.b - y.b
  let deltaC := c1 - c2
  let deltaH := Real.sqrt (deltaA * deltaA + deltaB * deltaB - deltaC * deltaC)
  let firstTerm := (x.l - y.l) / (l * cmcSl x.l)
  let secondTerm := (c1 - c2) / (c * cmcSc c1)
  let thirdTerm := deltaH / cmcSh c1 h1
  Real.sqrt (firstTerm * firstTerm + secondTerm * secondTerm + thirdTerm * thirdTerm)

/-! The public entry points: the `@validateColorInputs(false)` decorator
runs `_checkColor(arg, false)` on both color arguments (first argument
first) and only then evaluates the formula body. -/

/-- `DeltaE.cie1976` with its validation decorator. -/
def cie1976 (x y : List ℝ) : Except ColorError ℝ :=
  match _checkColor x false with
  | .error e => .error e
  | .ok xv =>
      match _checkColor y false with
      | .error e => .error e
      | .ok yv => .ok (cie1976Core (toLab xv) (toLab yv))

/-- `DeltaE.cie1994` with its validation decorator. -/
def cie1994 (x y : List ℝ) (applicationType : String) : Except ColorError ℝ :=
  match _checkColor x false with
  | .error e => .error e
  | .ok xv =>
      match _checkColor y false with
      | .error e => .error e
      | .ok yv => .ok (cie1994Core (toLab xv) (toLab yv) applicationType)

/-- `DeltaE.ciede2000` with its validation decorator. -/
def ciede2000 (x y : List ℝ) : Except ColorError ℝ :=
  match _checkColor x false with
  | .error e => .error e
  | .ok xv =>
      match _checkColor y false with
      | .error e => .error e
      | .ok yv => .ok (ciede2000Core (toLab xv) (toLab yv))

/-- `DeltaE.cmc1984` with its validation decorator. -/
def cmc1984 (x y : List ℝ) (thresholdType : String) : Except ColorError ℝ :=
  match _checkColor x false with
  | .error e => .error e
  | .ok xv =>
      match _checkColor y false with
      | .error e => .error e
      | .ok yv => .ok (cmc1984Core (toLab xv) (toLab yv) thresholdType)

/-- `cie1994`'s omitted-argument form: JavaScript fills in the default
parameter `applicationType = 'graphicArts'`. -/
def cie1994Default (x y : List ℝ) : Except ColorError ℝ := cie1994 x y "graphicArts"

/-- `cmc1984`'s omitted-argument form: JavaScript fills in the default
parameter `thresholdType = 'acceptability'`. -/
def cmc1984Default (x y : List ℝ) : Except ColorError ℝ := cmc1984 x y "acceptability"

/-- The L*a*b* coordinate bounds of `_isValidLabColor`, as a predicate on
a (possibly truncated) channel list. -/
def LabInRange (c : List ℝ) : Prop :=
  (0 ≤ c.getD 0 0 ∧ c.getD 0 0 ≤ 100) ∧
  (-128 ≤ c.getD 1 0 ∧ c.getD 1 0 ≤ 127) ∧
  (-128 ≤ c.getD 2 0 ∧ c.getD 2 0 ≤ 127)

/-! ## Helper lemmas -/

lemma isValidLabColor_all_iff (c : List ℝ) :
    ((_isValidLabColor c).all (fun e => e) = true) ↔ LabInRange c := by
  simp [_isValidLabColor, LabInRange, ge_iff_le, and_assoc]

lemma checkColor_count_err (x : List ℝ) (d : Bool)
    (h : ¬(x.length = 3 ∨ (d = true ∧ 3 < x.length))) :
    _checkColor x d = .error (.channelCount x 3) := by
  push_neg at h
  obtain ⟨h1, h2⟩ := h
  simp only [_checkColor, if_neg, if_pos, ne_eq, h1, not_false_iff, if_true]
  rw [if_neg]
  simp only [gt_iff_lt]
  intro hc
  exact absurd hc.2 (not_lt.mpr (h2 hc.1))

lemma take_three_of_length_eq (x : List ℝ) (h : x.length = 3) : x.take 3 = x := by
  rw [← h, List.take_length]

lemma checkColor_keep (x : List ℝ) (d : Bool)
    (h : x.length = 3 ∨ (d = true ∧ 3 < x.length)) :
    _checkColor x d =
      (if (_isValidLabColor (x.take 3)).all (fun e => e) then .ok (x.take 3)
       else .error (.coordinateRange (x.take 3) (_isValidLabColor (x.take 3)))) := by
  rcases h with h3 | ⟨hd, hlen⟩
  · simp only [_checkColor, ne_eq, h3, not_true_eq_false, if_false, if_neg]
    rw [take_three_of_length_eq x h3]
  · rcases eq_or_ne x.length 3 with h3 | h3
    · omega
    · simp only [_checkColor, ne_eq, h3, not_false_iff, if_true, hd, gt_iff_lt, hlen,
        and_self, if_pos]

lemma checkColor_ok (x : List ℝ) (h3 : x.length = 3) (hr : LabInRange x) :
    _checkColor x false = .ok x := by
  rw [checkColor_keep x false (Or.inl h3), take_three_of_length_eq x h3,
    if_pos ((isValidLabColor_all_iff x).mpr hr)]

lemma checkColor_range_err (x : List ℝ) (h3 : x.length = 3) (hr : ¬LabInRange x) :
    _checkColor x false = .error (.coordinateRange x (_isValidLabColor x)) := by
  rw [checkColor_keep x false (Or.inl h3), take_three_of_length_eq x h3,
    if_neg (by rw [isValidLabColor_all_iff]; exact hr)]

/-! ## Claim C4: `_checkColor` -/

/-- C4: `_checkColor` raises `ChannelCountError` whenever the length is
not 3, except that with `discard = true` and length > 3 the first three
elements are kept; the surviving 3-channel color is then range-checked,
raising `CoordinateRangeError` carrying one in-range flag per channel
(true exactly when that channel is within its bound), and otherwise the
color is returned unchanged.  The count check precedes the range check. -/
theorem checkColor_spec (x : List ℝ) (d : Bool) :
    (¬(x.length = 3 ∨ (d = true ∧ 3 < x.length)) →
        _checkColor x d = .error (.channelCount x 3)) ∧
    ((x.length = 3 ∨ (d = true ∧ 3 < x.length)) →
        (LabInRange (x.take 3) → _checkColor x d = .ok (x.take 3)) ∧
        (¬LabInRange (x.take 3) →
            _checkColor x d =
              .error (.coordinateRange (x.take 3) (_isValidLabColor (x.take 3))))) ∧
    (x.length = 3 → LabInRange x → _checkColor x d = .ok x) ∧
    (∀ c : List ℝ,
        ((_isValidLabColor c).getD 0 false = true ↔ 0 ≤ c.getD 0 0 ∧ c.getD 0 0 ≤ 100) ∧
        ((_isValidLabColor c).getD 1 false = true ↔ -128 ≤ c.getD 1 0 ∧ c.getD 1 0 ≤ 127) ∧
        ((_isValidLabColor c).getD 2 false = true ↔ -128 ≤ c.getD 2 0 ∧ c.getD 2 0 ≤ 127)) := by
  refine ⟨checkColor_count_err x d, fun h => ?_, fun h3 hr => ?_, fun c => ?_⟩
  · refine ⟨fun hr => ?_, fun hr => ?_⟩
    · rw [checkColor_keep x d h, if_pos ((isValidLabColor_all_iff _).mpr hr)]
    · rw [checkColor_keep x d h, if_neg (by rw [isValidLabColor_all_iff]; exact hr)]
  · rw [show _checkColor x d = _checkColor x false from ?_, checkColor_ok x h3 hr]
    rcases d with _ | _
    · rfl
    · simp only [_checkColor, ne_eq, h3, not_true_eq_false, if_false, if_neg]
  · simp [_isValidLabColor, ge_iff_le]

/-- C4 witness: concrete evaluations of the characterization at the
inputs named by the claim. -/
theorem checkColor_spec_witness :
    _checkColor [1, 2, 3, 4] false = .error (.channelCount [1, 2, 3, 4] 3) ∧
    _checkColor [1, 2, 3, 4] true = .ok [1, 2, 3] ∧
    _checkColor [1, 2] false = .error (.channelCount [1, 2] 3) ∧
    _checkColor [200, 200, 200] false =
      .error (.coordinateRange [200, 200, 200] (_isValidLabColor [200, 200, 200])) := by
  refine ⟨(checkColor_spec [1, 2, 3, 4] false).1 (by norm_num), ?_, ?_, ?_⟩
  · have h := ((checkColor_spec [1, 2, 3, 4] true).2.1 (by norm_num)).1
      (by norm_num [LabInRange])
    simpa using h
  · exact (checkColor_spec [1, 2] false).1 (by norm_num)
  · exact ((checkColor_spec [200, 200, 200] false).2.1 (by norm_num)).2
      (by norm_num [LabInRange])

/-! ## Claim C5: validation precedes every formula body -/

/-- C5 amended: all four formulas validate both arguments with
`discardExcessChannels = false` before any numeric work, first argument
first: a first argument of length ≠ 3 yields `ChannelCountError` on it;
a second argument of length ≠ 3 yields `ChannelCountError` on it
provided the first argument passed validation; a 3-channel but
out-of-range first argument yields its `CoordinateRangeError` before the
second argument's channel count is ever examined; and whenever either
argument's length is not 3, no numeric result is produced. -/
theorem formulas_channelCount (x y : List ℝ) (t u : String) :
    (x.length ≠ 3 →
        cie1976 x y = .error (.channelCount x 3) ∧
        cie1994 x y t = .error (.channelCount x 3) ∧
        ciede2000 x y = .error (.channelCount x 3) ∧
        cmc1984 x y u = .error (.channelCount x 3)) ∧
    (x.length = 3 → LabInRange x → y.length ≠ 3 →
        cie1976 x y = .error (.channelCount y 3) ∧
        cie1994 x y t = .error (.channelCount y 3) ∧
        ciede2000 x y = .error (.channelCount y 3) ∧
        cmc1984 x y u = .error (.channelCount y 3)) ∧
    (x.length = 3 → ¬LabInRange x →
        cie1976 x y = .error (.coordinateRange x (_isValidLabColor x)) ∧
        cie1994 x y t = .error (.coordinateRange x (_isValidLabColor x)) ∧
        ciede2000 x y = .error (.coordinateRange x (_isValidLabColor x)) ∧
        cmc1984 x y u = .error (.coordinateRange x (_isValidLabColor x))) ∧
    (x.length ≠ 3 ∨ y.length ≠ 3 → ∀ r : ℝ,
        cie1976 x y ≠ .ok r ∧ cie1994 x y t ≠ .ok r ∧
        ciede2000 x y ≠ .ok r ∧ cmc1984 x y u ≠ .ok r) := by
  have hx : x.length ≠ 3 → _checkColor x false = .error (.channelCount x 3) := fun h =>
    checkColor_count_err x false (by simp [h])
  have hy : y.length ≠ 3 → _checkColor y false = .error (.channelCount y 3) := fun h =>
    checkColor_count_err y false (by simp [h])
  refine ⟨fun h => ?_, fun h3 hr hy3 => ?_, fun h3 hr => ?_, fun h r => ?_⟩
  · simp [cie1976, cie1994, ciede2000, cmc1984, hx h]
  · simp [cie1976, cie1994, ciede2000, cmc1984, checkColor_ok x h3 hr, hy hy3]
  · simp [cie1976, cie1994, ciede2000, cmc1984, checkColor_range_err x h3 hr]
  · rcases h with h | h
    · simp [cie1976, cie1994, ciede2000, cmc1984, hx h]
    · rcases eq_or_ne x.length 3 with h3 | h3
      · by_cases hr : LabInRange x
        · simp [cie1976, cie1994, ciede2000, cmc1984, checkColor_ok x h3 hr, hy h]
        · simp [cie1976, cie1994, ciede2000, cmc1984, checkColor_range_err x h3 hr]
      · simp [cie1976, cie1994, ciede2000, cmc1984, hx h3]

/-- C5 counterexample: with the range-invalid 3-channel first argument
`[200, 200, 200]` and the 4-channel second argument `[1, 2, 3, 4]`, the
call fails with the first argument's `CoordinateRangeError`: the
decorator checks the first argument before examining the second, so a
wrong-count array in the second position does not always produce a
`ChannelCountError`. -/
theorem formulas_channelCount_counterexample :
    cie1976 [200, 200, 200] [1, 2, 3, 4] =
      .error (.coordinateRange [200, 200, 200] (_isValidLabColor [200, 200, 200])) ∧
    cie1976 [200, 200, 200] [1, 2, 3, 4] ≠ .error (.channelCount [1, 2, 3, 4] 3) ∧
    cie1976 [200, 200, 200] [1, 2, 3, 4] ≠ .error (.channelCount [200, 200, 200] 3) := by
  have he : cie1976 [200, 200, 200] [1, 2, 3, 4] =
      .error (.coordinateRange [200, 200, 200] (_isValidLabColor [200, 200, 200])) := by
    simp [cie1976,
      checkColor_range_err [200, 200, 200] (by norm_num) (by norm_num [LabInRange])]
  refine ⟨he, ?_, ?_⟩ <;> rw [he] <;> simp

/-- C5 witness: a 4-channel array in either position fails with
`ChannelCountError` on it. -/
theorem formulas_channelCount_witness :
    cie1976 [1, 2, 3, 4] [50, 0, 0] = .error (.channelCount [1, 2, 3, 4] 3) ∧
    cmc1984 [50, 0, 0] [1, 2, 3, 4] "acceptability" =
      .error (.channelCount [1, 2, 3, 4] 3) := by
  refine ⟨((formulas_channelCount [1, 2, 3, 4] [50, 0, 0] "graphicArts"
    "acceptability").1 (by norm_num)).1, ?_⟩
  exact ((formulas_channelCount [50, 0, 0] [1, 2, 3, 4] "graphicArts"
    "acceptability").2.1 (by norm_num) (by norm_num [LabInRange]) (by norm_num)).2.2.2

/-! ## Claim C3: every metric vanishes on identical colors -/

lemma cie1976Core_self (z : Lab) : cie1976Core z z = 0 := by
  simp [cie1976Core]

lemma cie1994Core_self (z : Lab) (t : String) : cie1994Core z z t = 0 := by
  simp [cie1994Core]

lemma h1PrimeOf_self_eq (z : Lab) : h1PrimeOf z z = h2PrimeOf z z := rfl

lemma deltaSmallHPrimeOf_self (z : Lab) : deltaSmallHPrimeOf z z = 0 := by
  rw [deltaSmallHPrimeOf]
  split
  · rfl
  · rw [← h1PrimeOf_self_eq, if_pos (by simp)]
    simp [h1PrimeOf_self_eq]

lemma deltaBigHPrimeOf_self (z : Lab) : deltaBigHPrimeOf z z = 0 := by
  rw [deltaBigHPrimeOf]
  split
  · rfl
  · rw [deltaSmallHPrimeOf_self]
    simp [sind, _degToRad]

lemma deltaCPrimeOf_self (z : Lab) : deltaCPrimeOf z z = 0 := by
  simp [deltaCPrimeOf, c1PrimeOf, c2PrimeOf, a1PrimeOf, a2PrimeOf]

lemma ciede2000Core_self (z : Lab) : ciede2000Core z z = 0 := by
  rw [ciede2000Core]
  simp only [deltaLPrimeOf, deltaCPrimeOf_self, deltaBigHPrimeOf_self, sub_self,
    zero_div, mul_zero, zero_mul, mul_one, one_mul, add_zero, zero_add]
  simp

lemma cmc1984Core_self (z : Lab) (t : String) : cmc1984Core z z t = 0 := by
  simp [cmc1984Core]

/-- C3: for every in-range color `x = [l, a, b]`, all four metrics return
`.ok 0` on the pair `(x, x)`, for every application and threshold type. -/
theorem metrics_identity_zero (l a b : ℝ) (h : LabInRange [l, a, b]) :
    cie1976 [l, a, b] [l, a, b] = .ok 0 ∧
    (∀ t, cie1994 [l, a, b] [l, a, b] t = .ok 0) ∧
    ciede2000 [l, a, b] [l, a, b] = .ok 0 ∧
    (∀ t, cmc1984 [l, a, b] [l, a, b] t = .ok 0) := by
  have hok : _checkColor [l, a, b] false = .ok [l, a, b] :=
    checkColor_ok [l, a, b] (by norm_num) h
  refine ⟨?_, fun t => ?_, ?_, fun t => ?_⟩
  · simp [cie1976, hok, cie1976Core_self]
  · simp [cie1994, hok, cie1994Core_self]
  · simp [ciede2000, hok, ciede2000Core_self]
  · simp [cmc1984, hok, cmc1984Core_self]

/-- C3 witness: the identity property evaluated at the concrete color
`[50, 10, 10]`. -/
theorem metrics_identity_zero_witness :
    ciede2000 [50, 10, 10] [50, 10, 10] = .ok 0 ∧
    cmc1984 [50, 10, 10] [50, 10, 10] "imperceptibility" = .ok 0 := by
  have h := metrics_identity_zero 50 10 10 (by norm_num [LabInRange])
  exact ⟨h.2.2.1, h.2.2.2 "imperceptibility"⟩

/-! ## Trigonometric and normalization lemmas -/

lemma atan2_le_pi (y x : ℝ) : atan2 y x ≤ Real.pi := Complex.arg_le_pi _

lemma neg_pi_lt_atan2 (y x : ℝ) : -Real.pi < atan2 y x := Complex.neg_pi_lt_arg _

lemma atan2d_le (x y : ℝ) : atan2d x y ≤ 180 := by
  rw [atan2d, _radToDeg]
  have hπ := Real.pi_pos
  rw [div_le_iff hπ]
  nlinarith [atan2_le_pi x y]

lemma neg_lt_atan2d (x y : ℝ) : -180 < atan2d x y := by
  rw [atan2d, _radToDeg]
  have hπ := Real.pi_pos
  rw [lt_div_iff hπ]
  nlinarith [neg_pi_lt_atan2 x y]

lemma jsMod_eq_self {v : ℝ} (h1 : -360 < v) (h2 : v < 360) : jsMod v 360 = v := by
  rw [jsMod, jsTrunc]
  rcases le_or_lt 0 (v / 360) with h | h
  · rw [if_pos h]
    have hz : ⌊v / 360⌋ = 0 := Int.floor_eq_zero_iff.mpr
      ⟨h, (div_lt_one (by norm_num)).mpr h2⟩
    rw [hz]
    push_cast
    ring
  · rw [if_neg (not_le.mpr h)]
    have hz : ⌈v / 360⌉ = 0 := Int.ceil_eq_zero_iff.mpr
      ⟨by rw [lt_div_iff (by norm_num : (0:ℝ) < 360)]; linarith, le_of_lt h⟩
    rw [hz]
    push_cast
    ring

lemma normHue_of_nonneg_lt (h : ℝ) (h0 : 0 ≤ h) (h1 : h < 360) : normHue h = h := by
  rw [normHue, if_neg (by linarith), if_neg (by linarith)]

lemma normHue_of_neg (h : ℝ) (hn : -360 < h) (h0 : h < 0) : normHue h = h + 360 := by
  rw [normHue, if_neg (by linarith), if_pos h0,
    normHue_of_nonneg_lt (h + 360) (by linarith) (by linarith)]

lemma h1PrimeOf_bounds (x y : Lab) : -180 < h1PrimeOf x y ∧ h1PrimeOf x y ≤ 180 := by
  rw [h1PrimeOf]
  split
  · norm_num
  · rw [jsMod_eq_self (by linarith [neg_lt_atan2d x.b (a1PrimeOf x y)])
      (by linarith [atan2d_le x.b (a1PrimeOf x y)])]
    exact ⟨neg_lt_atan2d _ _, atan2d_le _ _⟩

lemma h2PrimeOf_bounds (x y : Lab) : -180 < h2PrimeOf x y ∧ h2PrimeOf x y ≤ 180 := by
  rw [h2PrimeOf]
  split
  · norm_num
  · rw [jsMod_eq_self (by linarith [neg_lt_atan2d y.b (a2PrimeOf x y)])
      (by linarith [atan2d_le y.b (a2PrimeOf x y)])]
    exact ⟨neg_lt_atan2d _ _, atan2d_le _ _⟩

/-! ## Claim C2 (corrected): the per-color hue values of `ciede2000` -/

/-- C2 counterexample: at the valid input pair `([50, 0, -10], [50, 0, -10])`
the first hue `h1Prime` equals `-90`, which is not in `[0, 360)`:
JavaScript's `%` keeps the sign of the dividend, so `atan2d(b, a') % 360`
is negative whenever `atan2d` is. -/
theorem hPrime_negative_counterexample :
    h1PrimeOf ⟨50, 0, -10⟩ ⟨50, 0, -10⟩ = -90 ∧
    h1PrimeOf ⟨50, 0, -10⟩ ⟨50, 0, -10⟩ < 0 := by
  have ha : a1PrimeOf ⟨50, 0, -10⟩ ⟨50, 0, -10⟩ = 0 := by
    simp [a1PrimeOf]
  have harg : atan2 (-10) 0 = -(Real.pi / 2) := by
    rw [atan2]
    have hz : ((0 : ℝ) : ℂ) + ((-10 : ℝ) : ℂ) * Complex.I =
        ((10 : ℝ) : ℂ) * (-Complex.I) := by
      push_cast
      ring
    rw [hz, Complex.arg_real_mul (-Complex.I) (by norm_num : (0:ℝ) < 10),
      Complex.arg_neg_I]
  have hdeg : atan2d (-10) 0 = -90 := by
    rw [atan2d, harg, _radToDeg, div_eq_iff (ne_of_gt Real.pi_pos)]
    ring
  have hmain : h1PrimeOf ⟨50, 0, -10⟩ ⟨50, 0, -10⟩ = -90 := by
    rw [h1PrimeOf, if_neg (by norm_num), ha, hdeg,
      jsMod_eq_self (by norm_num) (by norm_num)]
  exact ⟨hmain, by rw [hmain]; norm_num⟩

/-- C2 amended: each per-color hue `h'` of `ciede2000` is `0` when
`a' = 0` and `b = 0`, and otherwise is `atan2d(b, a') % 360` computed with
the JavaScript remainder; since `atan2d` ranges over `(-180, 180]` the
remainder is the identity there, so `h1'` and `h2'` always lie in
`(-180, 180]` (not `[0, 360)`). -/
theorem hPrime_def_range (x y : Lab) :
    (a1PrimeOf x y = 0 ∧ x.b = 0 → h1PrimeOf x y = 0) ∧
    (¬(a1PrimeOf x y = 0 ∧ x.b = 0) →
        h1PrimeOf x y = jsMod (atan2d x.b (a1PrimeOf x y)) 360 ∧
        h1PrimeOf x y = atan2d x.b (a1PrimeOf x y)) ∧
    (a2PrimeOf x y = 0 ∧ y.b = 0 → h2PrimeOf x y = 0) ∧
    (¬(a2PrimeOf x y = 0 ∧ y.b = 0) →
        h2PrimeOf x y = jsMod (atan2d y.b (a2PrimeOf x y)) 360 ∧
        h2PrimeOf x y = atan2d y.b (a2PrimeOf x y)) ∧
    (-180 < h1PrimeOf x y ∧ h1PrimeOf x y ≤ 180) ∧
    (-180 < h2PrimeOf x y ∧ h2PrimeOf x y ≤ 180) := by
  refine ⟨fun h => by rw [h1PrimeOf, if_pos h], fun h => ?_,
    fun h => by rw [h2PrimeOf, if_pos h], fun h => ?_,
    h1PrimeOf_bounds x y, h2PrimeOf_bounds x y⟩
  · have he : h1PrimeOf x y = jsMod (atan2d x.b (a1PrimeOf x y)) 360 := by
      rw [h1PrimeOf, if_neg h]
    refine ⟨he, ?_⟩
    rw [he, jsMod_eq_self (by linarith [neg_lt_atan2d x.b (a1PrimeOf x y)])
      (by linarith [atan2d_le x.b (a1PrimeOf x y)])]
  · have he : h2PrimeOf x y = jsMod (atan2d y.b (a2PrimeOf x y)) 360 := by
      rw [h2PrimeOf, if_neg h]
    refine ⟨he, ?_⟩
    rw [he, jsMod_eq_self (by linarith [neg_lt_atan2d y.b (a2PrimeOf x y)])
      (by linarith [atan2d_le y.b (a2PrimeOf x y)])]

/-- C2 amended witness: at `([50, 0, 10], [50, 0, 10])` the first
condition fails (`b = 10 ≠ 0`), so `h1Prime` is the reduced `atan2d`
value, and the range bounds hold there. -/
theorem hPrime_def_range_witness :
    h1PrimeOf ⟨50, 0, 10⟩ ⟨50, 0, 10⟩ =
      atan2d 10 (a1PrimeOf ⟨50, 0, 10⟩ ⟨50, 0, 10⟩) ∧
    h1PrimeOf ⟨50, 0, 10⟩ ⟨50, 0, 10⟩ ≤ 180 := by
  refine ⟨((hPrime_def_range ⟨50, 0, 10⟩ ⟨50, 0, 10⟩).2.1 (by norm_num)).2, ?_⟩
  exact (hPrime_def_range ⟨50, 0, 10⟩ ⟨50, 0, 10⟩).2.2.2.2.1.2

/-! ## Claim C8: `labToLch` -/

/-- C8: `labToLch [L, a, b]` passes `L` through, computes the chroma
`C = sqrt(a² + b²)`, sets `H = 0` when `C ≤ 0` and otherwise normalizes
`atan2d(b, a)` by the 360° loops; the resulting hue differs from
`atan2d(b, a)` by an integer multiple of 360 and always lies in
`[0, 360)`. -/
theorem labToLch_spec (x : Lab) :
    (labToLch x).l = x.l ∧
    (labToLch x).c = Real.sqrt (x.a * x.a + x.b * x.b) ∧
    ((labToLch x).c ≤ 0 → (labToLch x).h = 0) ∧
    (0 < (labToLch x).c →
        (labToLch x).h = normHue (atan2d x.b x.a) ∧
        ∃ k : ℤ, (labToLch x).h = atan2d x.b x.a + 360 * k) ∧
    (0 ≤ (labToLch x).h ∧ (labToLch x).h < 360) := by
  have hl : (labToLch x).l = x.l := rfl
  have hc : (labToLch x).c = Real.sqrt (x.a * x.a + x.b * x.b) := rfl
  have hh : (labToLch x).h =
      normHue (if Real.sqrt (x.a * x.a + x.b * x.b) ≤ 0 then 0
               else atan2d x.b x.a) := rfl
  by_cases hC : Real.sqrt (x.a * x.a + x.b * x.b) ≤ 0
  · have h0 : (labToLch x).h = 0 := by
      rw [hh, if_pos hC]
      exact normHue_of_nonneg_lt 0 le_rfl (by norm_num)
    refine ⟨hl, hc, fun _ => h0, ?_, by rw [h0]; norm_num⟩
    intro hpos
    rw [hc] at hpos
    linarith
  · have hh2 : (labToLch x).h = normHue (atan2d x.b x.a) := by rw [hh, if_neg hC]
    have hb1 := neg_lt_atan2d x.b x.a
    have hb2 := atan2d_le x.b x.a
    rcases le_or_lt 0 (atan2d x.b x.a) with hge | hlt
    · have hn : normHue (atan2d x.b x.a) = atan2d x.b x.a :=
        normHue_of_nonneg_lt _ hge (by linarith)
      exact ⟨hl, hc, fun hle => absurd hle hC,
        fun _ => ⟨hh2, ⟨0, by rw [hh2, hn]; push_cast; ring⟩⟩,
        by rw [hh2, hn]; constructor <;> linarith⟩
    · have hn : normHue (atan2d x.b x.a) = atan2d x.b x.a + 360 :=
        normHue_of_neg _ (by linarith) hlt
      exact ⟨hl, hc, fun hle => absurd hle hC,
        fun _ => ⟨hh2, ⟨1, by rw [hh2, hn]; push_cast; ring⟩⟩,
        by rw [hh2, hn]; constructor <;> linarith⟩

/-- C8 witness: the conversion at the test color `[93, -1, 25]`: the
lightness passes through and the hue is the normalized `atan2d(25, -1)`. -/
theorem labToLch_spec_witness :
    (labToLch ⟨93, -1, 25⟩).l = 93 ∧
    (labToLch ⟨93, -1, 25⟩).h = normHue (atan2d 25 (-1)) := by
  have hpos : 0 < (labToLch ⟨93, -1, 25⟩).c := by
    rw [(labToLch_spec ⟨93, -1, 25⟩).2.1]
    exact Real.sqrt_pos.mpr (by norm_num)
  exact ⟨(labToLch_spec ⟨93, -1, 25⟩).1,
    ((labToLch_spec ⟨93, -1, 25⟩).2.2.2.1 hpos).1⟩

/-! ## Claim C6: `cie1994` weights and formula -/

/-- C6: `cie1994` selects `k1/k2/kl` by application type (graphicArts:
0.045/0.015/1; textiles: 0.048/0.014/2; anything else behaves as
graphicArts, and `getklValueFromType` returns 1 except on `'textiles'`),
and returns `sqrt((ΔL/(kl·sl))² + (ΔC/(kc·sc))² + (ΔH/(kh·sh))²)` with
`sl = 1`, `sc = 1 + k1·c1`, `sh = 1 + k2·c2`, `kc = kh = 1`, where `c1`
and `c2` are the chromas of the reference and the sample; the result is
asymmetric in the argument order. -/
theorem cie1994_spec :
    getklValueFromType "graphicArts" = 1 ∧
    getklValueFromType "textiles" = 2 ∧
    (∀ t, t ≠ "textiles" → getklValueFromType t = 1) ∧
    cie1994K "graphicArts" = (0.045, 0.015) ∧
    cie1994K "textiles" = (0.048, 0.014) ∧
    (∀ t, t ≠ "textiles" → cie1994K t = (0.045, 0.015)) ∧
    (∀ x y : Lab, ∀ t : String,
        cie1994Core x y t =
          Real.sqrt
            (((x.l - y.l) / (getklValueFromType t * 1)) ^ 2 +
             ((Real.sqrt (x.a * x.a + x.b * x.b) - Real.sqrt (y.a * y.a + y.b * y.b)) /
                (1 * (1 + (cie1994K t).1 * Real.sqrt (x.a * x.a + x.b * x.b)))) ^ 2 +
             (Real.sqrt ((x.a - y.a) * (x.a - y.a) + (x.b - y.b) * (x.b - y.b) -
                 (Real.sqrt (x.a * x.a + x.b * x.b) - Real.sqrt (y.a * y.a + y.b * y.b)) *
                   (Real.sqrt (x.a * x.a + x.b * x.b) - Real.sqrt (y.a * y.a + y.b * y.b))) /
                (1 * (1 + (cie1994K t).2 * Real.sqrt (y.a * y.a + y.b * y.b)))) ^ 2)) ∧
    (∃ x y : Lab, ∃ t, cie1994Core x y t ≠ cie1994Core y x t) := by
  refine ⟨rfl, rfl, fun t ht => by rw [getklValueFromType, if_neg ht],
    rfl, rfl, fun t ht => by rw [cie1994K, if_neg ht],
    fun x y t => by simp only [cie1994Core]; congr 1; ring, ?_⟩
  refine ⟨⟨50, 10, 0⟩, ⟨50, 20, 0⟩, "graphicArts", fun heq => ?_⟩
  have h10 : Real.sqrt ((10 : ℝ) * 10 + 0 * 0) = 10 := by
    rw [show (10 : ℝ) * 10 + 0 * 0 = 10 ^ 2 by norm_num, Real.sqrt_sq (by norm_num : (0:ℝ) ≤ 10)]
  have h20 : Real.sqrt ((20 : ℝ) * 20 + 0 * 0) = 20 := by
    rw [show (20 : ℝ) * 20 + 0 * 0 = 20 ^ 2 by norm_num, Real.sqrt_sq (by norm_num : (0:ℝ) ≤ 20)]
  have hK1 : (cie1994K "graphicArts").1 = 0.045 := rfl
  have hK2 : (cie1994K "graphicArts").2 = 0.015 := rfl
  have hkl : getklValueFromType "graphicArts" = 1 := rfl
  simp only [cie1994Core, hK1, hK2, hkl, h10, h20] at heq
  norm_num at heq
  rw [show (40000 : ℝ) = 200 ^ 2 by norm_num, Real.sqrt_sq (by norm_num : (0:ℝ) ≤ 200),
    show (841 : ℝ) = 29 ^ 2 by norm_num, Real.sqrt_sq (by norm_num : (0:ℝ) ≤ 29),
    show (10000 : ℝ) = 100 ^ 2 by norm_num, Real.sqrt_sq (by norm_num : (0:ℝ) ≤ 100),
    show (361 : ℝ) = 19 ^ 2 by norm_num, Real.sqrt_sq (by norm_num : (0:ℝ) ≤ 19)] at heq
  norm_num at heq

/-- C6 witness: the weight selection evaluated at an unrecognized
application type. -/
theorem cie1994_spec_witness :
    getklValueFromType "foobar" = 1 ∧ cie1994K "foobar" = (0.045, 0.015) := by
  exact ⟨cie1994_spec.2.2.1 "foobar" (by decide),
    cie1994_spec.2.2.2.2.2.1 "foobar" (by decide)⟩

/-! ## Claim C7: `cmc1984` threshold weights and weighting functions -/

/-- C7: `cmc1984`'s omitted threshold argument means `'acceptability'`,
which selects `l = 2, c = 1`, while `'imperceptibility'` and every
unrecognized value select `l = 1, c = 1`; the weighting uses only the
first color's L*, C*, H*: `T = 0.56 + |0.2·cosd(h1+168)|` for
`h1 ∈ [164, 345]` and `0.36 + |0.4·cosd(h1+35)|` otherwise, and
`Sl = 0.511` for `l1 < 16`, else `0.040975·l1/(1 + 0.01765·l1)`. -/
theorem cmc1984_spec :
    (∀ x y : List ℝ, cmc1984Default x y = cmc1984 x y "acceptability") ∧
    cmcLC "acceptability" = (2, 1) ∧
    cmcLC "imperceptibility" = (1, 1) ∧
    (∀ t, t ≠ "acceptability" → cmcLC t = (1, 1)) ∧
    (∀ h1 : ℝ,
        (164 ≤ h1 ∧ h1 ≤ 345 → cmcT h1 = 0.56 + |0.2 * cosd (h1 + 168)|) ∧
        (¬(164 ≤ h1 ∧ h1 ≤ 345) → cmcT h1 = 0.36 + |0.4 * cosd (h1 + 35)|)) ∧
    (∀ l1 : ℝ,
        (l1 < 16 → cmcSl l1 = 0.511) ∧
        (¬l1 < 16 → cmcSl l1 = 0.040975 * l1 / (1 + 0.01765 * l1))) ∧
    (∀ x y : Lab, ∀ t : String,
        cmc1984Core x y t =
          Real.sqrt
            (((x.l - y.l) / ((cmcLC t).1 * cmcSl x.l)) ^ 2 +
             (((labToLch x).c - (labToLch y).c) /
                ((cmcLC t).2 * cmcSc (labToLch x).c)) ^ 2 +
             (Real.sqrt ((x.a - y.a) * (x.a - y.a) + (x.b - y.b) * (x.b - y.b) -
                 ((labToLch x).c - (labToLch y).c) *
                   ((labToLch x).c - (labToLch y).c)) /
                cmcSh (labToLch x).c (labToLch x).h) ^ 2)) := by
  refine ⟨fun x y => rfl, rfl, rfl, fun t ht => by rw [cmcLC, if_neg ht],
    fun h1 => ⟨fun h => by rw [cmcT, if_pos (by exact ⟨h.1, h.2⟩)],
      fun h => by rw [cmcT, if_neg (by simpa [ge_iff_le] using h)]⟩,
    fun l1 => ⟨fun h => by rw [cmcSl, if_pos h], fun h => by rw [cmcSl, if_neg h]⟩,
    fun x y t => by simp only [cmc1984Core]; congr 1; ring⟩

/-- C7 witness: the threshold selection and weighting branches evaluated
at concrete values. -/
theorem cmc1984_spec_witness :
    cmcLC "foobar" = (1, 1) ∧ cmcSl 10 = 0.511 ∧
    cmcT 200 = 0.56 + |0.2 * cosd (200 + 168)| := by
  exact ⟨cmc1984_spec.2.2.2.1 "foobar" (by decide),
    (cmc1984_spec.2.2.2.2.2.1 10).1 (by norm_num),
    (cmc1984_spec.2.2.2.2.1 200).1 (by norm_num)⟩

/-! ## Claim C1: `ciede2000` hue terms and final combination -/

/-- C1: in `ciede2000`, when either adjusted chroma is 0 the hue
differences vanish and `h̄'` is the *sum* of the hues; otherwise `Δh'` is
the direct difference within 180° and is wrapped by ±360 to magnitude
≤ 180 beyond it, `ΔH' = 2·sqrt(c1'·c2')·sind(Δh'/2)`, and `h̄'` is the
arc-aware mean: the direct average within 180°, and beyond 180° the
average shifted by +360/2 — with the hues confined to `(-180, 180]` the
sum is provably below 360, so the code's `+360` branch is the one taken,
the direction that lands the mean in `[0, 360)`; the returned value is
`sqrt(termL² + termC² + termH² + Rt·termC·termH)` with `kl = kc = kh = 1`
and `termL = ΔL'/Sl`, `termC = ΔC'/Sc`, `termH = ΔH'/Sh`. -/
theorem ciede2000_hue_spec (x y : Lab) :
    ((c1PrimeOf x y = 0 ∨ c2PrimeOf x y = 0) →
        deltaSmallHPrimeOf x y = 0 ∧ deltaBigHPrimeOf x y = 0 ∧
        hBarPrimeOf x y = h1PrimeOf x y + h2PrimeOf x y) ∧
    (¬(c1PrimeOf x y = 0 ∨ c2PrimeOf x y = 0) →
        (|h1PrimeOf x y - h2PrimeOf x y| ≤ 180 →
            deltaSmallHPrimeOf x y = h2PrimeOf x y - h1PrimeOf x y ∧
            hBarPrimeOf x y = (h1PrimeOf x y + h2PrimeOf x y) / 2) ∧
        (180 < |h1PrimeOf x y - h2PrimeOf x y| →
            (deltaSmallHPrimeOf x y = h2PrimeOf x y - h1PrimeOf x y + 360 ∨
             deltaSmallHPrimeOf x y = h2PrimeOf x y - h1PrimeOf x y - 360) ∧
            |deltaSmallHPrimeOf x y| ≤ 180 ∧
            hBarPrimeOf x y = (h1PrimeOf x y + h2PrimeOf x y + 360) / 2 ∧
            0 ≤ hBarPrimeOf x y ∧ hBarPrimeOf x y < 360) ∧
        deltaBigHPrimeOf x y =
          2 * Real.sqrt (c1PrimeOf x y * c2PrimeOf x y) *
            sind (deltaSmallHPrimeOf x y / 2)) ∧
    ciede2000Core x y =
      Real.sqrt ((deltaLPrimeOf x y / slOf x y) ^ 2 +
        (deltaCPrimeOf x y / scOf x y) ^ 2 +
        (deltaBigHPrimeOf x y / shOf x y) ^ 2 +
        RtOf x y * (deltaCPrimeOf x y / scOf x y) *
          (deltaBigHPrimeOf x y / shOf x y)) := by
  obtain ⟨hb11, hb12⟩ := h1PrimeOf_bounds x y
  obtain ⟨hb21, hb22⟩ := h2PrimeOf_bounds x y
  refine ⟨fun h => ?_, fun h => ⟨fun hle => ?_, fun hgt => ?_, ?_⟩, ?_⟩
  · rw [deltaSmallHPrimeOf, if_pos h, deltaBigHPrimeOf, if_pos h,
      hBarPrimeOf, if_pos h]
    exact ⟨rfl, rfl, rfl⟩
  · rw [deltaSmallHPrimeOf, if_neg h, if_pos hle, hBarPrimeOf, if_neg h, if_pos hle]
    exact ⟨rfl, rfl⟩
  · have hnle : ¬|h1PrimeOf x y - h2PrimeOf x y| ≤ 180 := not_le.mpr hgt
    refine ⟨?_, ?_, ?_⟩
    · rw [deltaSmallHPrimeOf, if_neg h, if_neg hnle]
      split
      · exact Or.inl rfl
      · exact Or.inr rfl
    · rw [deltaSmallHPrimeOf, if_neg h, if_neg hnle]
      split
      · rename_i hle21
        rw [abs_of_nonneg (by linarith)] at hgt
        rw [abs_le]
        constructor <;> linarith
      · rename_i hgt21
        push_neg at hgt21
        rw [abs_of_nonpos (by linarith)] at hgt
        rw [abs_le]
        constructor <;> linarith
    · have hslt : h1PrimeOf x y + h2PrimeOf x y < 360 := by
        by_contra hs
        push_neg at hs
        have h1e : h1PrimeOf x y = 180 := le_antisymm hb12 (by linarith)
        have h2e : h2PrimeOf x y = 180 := le_antisymm hb22 (by linarith)
        rw [h1e, h2e, sub_self, abs_zero] at hgt
        linarith
      have hbe : hBarPrimeOf x y = (h1PrimeOf x y + h2PrimeOf x y + 360) / 2 := by
        rw [hBarPrimeOf, if_neg h, if_neg hnle, if_pos hslt]
      exact ⟨hbe, by rw [hbe]; linarith, by rw [hbe]; linarith⟩
  · rw [deltaBigHPrimeOf, if_neg h]
  · simp only [ciede2000Core, one_mul]
    congr 1
    ring

/-- C1 witness: at the achromatic pair `([50, 0, 0], [50, 0, 0])` the
adjusted chroma `c1'` is 0, so both hue differences are 0 and `h̄'` is
the sum of the two hues. -/
theorem ciede2000_hue_spec_witness :
    deltaSmallHPrimeOf ⟨50, 0, 0⟩ ⟨50, 0, 0⟩ = 0 ∧
    deltaBigHPrimeOf ⟨50, 0, 0⟩ ⟨50, 0, 0⟩ = 0 ∧
    hBarPrimeOf ⟨50, 0, 0⟩ ⟨50, 0, 0⟩ =
      h1PrimeOf ⟨50, 0, 0⟩ ⟨50, 0, 0⟩ + h2PrimeOf ⟨50, 0, 0⟩ ⟨50, 0, 0⟩ := by
  have hc1 : c1PrimeOf ⟨50, 0, 0⟩ ⟨50, 0, 0⟩ = 0 := by
    simp [c1PrimeOf, a1PrimeOf]
  exact (ciede2000_hue_spec ⟨50, 0, 0⟩ ⟨50, 0, 0⟩).1 (Or.inl hc1)

/-! ## Claim C10: `ciede2000` is symmetric -/

lemma sind_neg (t : ℝ) : sind (-t) = -sind t := by
  rw [sind, sind, _degToRad, _degToRad, show -t * Real.pi / 180 = -(t * Real.pi / 180) by ring,
    Real.sin_neg]

lemma lBarOf_comm (x y : Lab) : lBarOf x y = lBarOf y x := by
  rw [lBarOf, lBarOf]
  ring

lemma cBarOf_comm (x y : Lab) : cBarOf x y = cBarOf y x := by
  rw [cBarOf, cBarOf]
  ring

lemma cCoeffOf_comm (x y : Lab) : cCoeffOf x y = cCoeffOf y x := by
  rw [cCoeffOf, cCoeffOf, cBarOf_comm]

lemma a1PrimeOf_swap (x y : Lab) : a1PrimeOf x y = a2PrimeOf y x := by
  rw [a1PrimeOf, a2PrimeOf, cCoeffOf_comm]

lemma a2PrimeOf_swap (x y : Lab) : a2PrimeOf x y = a1PrimeOf y x := by
  rw [a1PrimeOf, a2PrimeOf, cCoeffOf_comm]

lemma c1PrimeOf_swap (x y : Lab) : c1PrimeOf x y = c2PrimeOf y x := by
  rw [c1PrimeOf, c2PrimeOf, a1PrimeOf_swap]

lemma c2PrimeOf_swap (x y : Lab) : c2PrimeOf x y = c1PrimeOf y x := by
  rw [c1PrimeOf, c2PrimeOf, a2PrimeOf_swap]

lemma h1PrimeOf_swap (x y : Lab) : h1PrimeOf x y = h2PrimeOf y x := by
  rw [h1PrimeOf, h2PrimeOf, a1PrimeOf_swap]

lemma h2PrimeOf_swap (x y : Lab) : h2PrimeOf x y = h1PrimeOf y x := by
  rw [h1PrimeOf, h2PrimeOf, a2PrimeOf_swap]

lemma cBarPrimeOf_comm (x y : Lab) : cBarPrimeOf x y = cBarPrimeOf y x := by
  rw [cBarPrimeOf, cBarPrimeOf, c1PrimeOf_swap x y, c2PrimeOf_swap x y]
  ring

lemma deltaLPrimeOf_antisymm (x y : Lab) : deltaLPrimeOf x y = -deltaLPrimeOf y x := by
  rw [deltaLPrimeOf, deltaLPrimeOf]
  ring

lemma deltaCPrimeOf_antisymm (x y : Lab) : deltaCPrimeOf x y = -deltaCPrimeOf y x := by
  rw [deltaCPrimeOf, deltaCPrimeOf, c1PrimeOf_swap x y, c2PrimeOf_swap x y]
  ring

lemma deltaSmallHPrimeOf_antisymm (x y : Lab) :
    deltaSmallHPrimeOf x y = -deltaSmallHPrimeOf y x := by
  rw [deltaSmallHPrimeOf, deltaSmallHPrimeOf, c1PrimeOf_swap x y, c2PrimeOf_swap x y,
    h1PrimeOf_swap x y, h2PrimeOf_swap x y]
  by_cases hg : c1PrimeOf y x = 0 ∨ c2PrimeOf y x = 0
  · rw [if_pos (Or.symm hg), if_pos hg]
    ring
  · rw [if_neg (fun hc => hg (Or.symm hc)), if_neg hg]
    by_cases habs : |h1PrimeOf y x - h2PrimeOf y x| ≤ 180
    · rw [if_pos (by rw [abs_sub_comm]; exact habs), if_pos habs]
      ring
    · rw [if_neg (by rw [abs_sub_comm]; exact habs), if_neg habs]
      have hne : h1PrimeOf y x ≠ h2PrimeOf y x := by
        intro he
        rw [he, sub_self, abs_zero] at habs
        exact habs (by norm_num)
      rcases lt_or_gt_of_ne hne with hlt | hgt
      · rw [if_pos (le_of_lt hlt), if_neg (not_le.mpr hlt)]
        ring
      · rw [if_neg (not_le.mpr hgt), if_pos (le_of_lt hgt)]
        ring

lemma hBarPrimeOf_comm (x y : Lab) : hBarPrimeOf x y = hBarPrimeOf y x := by
  rw [hBarPrimeOf, hBarPrimeOf, c1PrimeOf_swap x y, c2PrimeOf_swap x y,
    h1PrimeOf_swap x y, h2PrimeOf_swap x y]
  by_cases hg : c1PrimeOf y x = 0 ∨ c2PrimeOf y x = 0
  · rw [if_pos (Or.symm hg), if_pos hg]
    ring
  · rw [if_neg (fun hc => hg (Or.symm hc)), if_neg hg]
    by_cases habs : |h1PrimeOf y x - h2PrimeOf y x| ≤ 180
    · rw [if_pos (by rw [abs_sub_comm]; exact habs), if_pos habs]
      ring
    · rw [if_neg (by rw [abs_sub_comm]; exact habs), if_neg habs]
      by_cases hsum : h1PrimeOf y x + h2PrimeOf y x < 360
      · rw [if_pos (by linarith), if_pos hsum]
        ring
      · rw [if_neg (by intro hc; exact hsum (by linarith)), if_neg hsum]
        ring

lemma deltaBigHPrimeOf_antisymm (x y : Lab) :
    deltaBigHPrimeOf x y = -deltaBigHPrimeOf y x := by
  rw [deltaBigHPrimeOf, deltaBigHPrimeOf, c1PrimeOf_swap x y, c2PrimeOf_swap x y,
    deltaSmallHPrimeOf_antisymm x y]
  by_cases hg : c1PrimeOf y x = 0 ∨ c2PrimeOf y x = 0
  · rw [if_pos (Or.symm hg), if_pos hg]
    ring
  · rw [if_neg (fun hc => hg (Or.symm hc)), if_neg hg,
      mul_comm (c2PrimeOf y x) (c1PrimeOf y x),
      show -deltaSmallHPrimeOf y x / 2 = -(deltaSmallHPrimeOf y x / 2) by ring, sind_neg]
    ring

lemma TOf_comm (x y : Lab) : TOf x y = TOf y x := by
  rw [TOf, TOf, hBarPrimeOf_comm]

lemma slCoeffOf_comm (x y : Lab) : slCoeffOf x y = slCoeffOf y x := by
  rw [slCoeffOf, slCoeffOf, lBarOf_comm]

lemma slOf_comm (x y : Lab) : slOf x y = slOf y x := by
  rw [slOf, slOf, slCoeffOf_comm]

lemma scOf_comm (x y : Lab) : scOf x y = scOf y x := by
  rw [scOf, scOf, cBarPrimeOf_comm]

lemma shOf_comm (x y : Lab) : shOf x y = shOf y x := by
  rw [shOf, shOf, cBarPrimeOf_comm, TOf_comm]

lemma RtOf_comm (x y : Lab) : RtOf x y = RtOf y x := by
  rw [RtOf, RtOf, cCoeffOf_comm, RtCoeffOf, RtCoeffOf, hBarPrimeOf_comm]

lemma ciede2000Core_comm (x y : Lab) : ciede2000Core x y = ciede2000Core y x := by
  simp only [ciede2000Core, one_mul]
  rw [deltaLPrimeOf_antisymm x y, deltaCPrimeOf_antisymm x y, deltaBigHPrimeOf_antisymm x y,
    slOf_comm x y, scOf_comm x y, shOf_comm x y, RtOf_comm x y]
  congr 1
  ring

/-- C10: `ciede2000` is symmetric: for every pair of valid 3-channel
L*a*b* colors, swapping the reference and sample arguments leaves the
result unchanged (the swap negates `ΔL'`, `ΔC'`, `Δh'`, `ΔH'` but every
squared term and the `Rt` cross term survive). -/
theorem ciede2000_symmetric (l1 a1 b1 l2 a2 b2 : ℝ)
    (hx : LabInRange [l1, a1, b1]) (hy : LabInRange [l2, a2, b2]) :
    ciede2000 [l1, a1, b1] [l2, a2, b2] = ciede2000 [l2, a2, b2] [l1, a1, b1] := by
  simp only [ciede2000, checkColor_ok [l1, a1, b1] (by norm_num) hx,
    checkColor_ok [l2, a2, b2] (by norm_num) hy]
  exact congrArg Except.ok (ciede2000Core_comm _ _)

/-- C10 witness: symmetry at a concrete valid pair. -/
theorem ciede2000_symmetric_witness :
    ciede2000 [50, 10, 10] [60, 20, 20] = ciede2000 [60, 20, 20] [50, 10, 10] :=
  ciede2000_symmetric 50 10 10 60 20 20 (by norm_num [LabInRange])
    (by norm_num [LabInRange])

/-! ## The ΔH radicand of CIE94 / CMC l:c over the reals

In exact real arithmetic the signed radicand `ΔA² + ΔB² - ΔC²` shared by
`cie1994Core` and `cmc1984Core` equals `2·(c1·c2 - (a1·a2 + b1·b2))` and
is nonnegative for every input by the Cauchy–Schwarz inequality: the
negative values (and the ensuing NaN) reported for the JavaScript code
are artifacts of IEEE-754 rounding, which this embedding does not model. -/
lemma deltaH_radicand_nonneg (x y : Lab) :
    0 ≤ (x.a - y.a) * (x.a - y.a) + (x.b - y.b) * (x.b - y.b) -
      (Real.sqrt (x.a * x.a + x.b * x.b) - Real.sqrt (y.a * y.a + y.b * y.b)) *
        (Real.sqrt (x.a * x.a + x.b * x.b) - Real.sqrt (y.a * y.a + y.b * y.b)) := by
  have hA0 : 0 ≤ x.a * x.a + x.b * x.b :=
    add_nonneg (mul_self_nonneg _) (mul_self_nonneg _)
  have hB0 : 0 ≤ y.a * y.a + y.b * y.b :=
    add_nonneg (mul_self_nonneg _) (mul_self_nonneg _)
  have h1 : Real.sqrt (x.a * x.a + x.b * x.b) * Real.sqrt (x.a * x.a + x.b * x.b) =
      x.a * x.a + x.b * x.b := Real.mul_self_sqrt hA0
  have h2 : Real.sqrt (y.a * y.a + y.b * y.b) * Real.sqrt (y.a * y.a + y.b * y.b) =
      y.a * y.a + y.b * y.b := Real.mul_self_sqrt hB0
  have hcs : x.a * y.a + x.b * y.b ≤
      Real.sqrt (x.a * x.a + x.b * x.b) * Real.sqrt (y.a * y.a + y.b * y.b) := by
    rw [← Real.sqrt_mul hA0]
    rcases le_or_lt (x.a * y.a + x.b * y.b) 0 with h | h
    · exact le_trans h (Real.sqrt_nonneg _)
    · rw [Real.le_sqrt (le_of_lt h) (mul_nonneg hA0 hB0)]
      nlinarith [sq_nonneg (x.a * y.b - x.b * y.a)]
  nlinarith [h1, h2, hcs]

end Empfindung
